import Mathlib

/-!
Verification of the matching and scoring engine of `adakgc/extraction/scorer.py`:
the `Metric` accumulator family (`set` / `normal` / `multimatch` matching), the
structural record equalities of `RecordMetric` / `OrderedRecordMetric`, and the
entity / relation / event scorers built on top of them.

Python values are embedded as follows: tuples become Lean products or fixed
structures (lists of strings where heterogeneous arity matters), Python `set`
becomes `Finset` via `List.toFinset`, floats produced by `compute_f1` become
`ℚ` (every quantity involved is an exact ratio of integers), `assert` and
`raise` become `Except`, and the in-place mutation questions are settled over a
small allocation store.
-/

namespace AdaKGC

/-- The three match modes accepted by `Metric.__init__` (`scorer.py` line 25). -/
inductive Mode where
  | set
  | normal
  | multimatch
deriving DecidableEq, Repr

/-- Counter state of one `Metric` accumulator: `tp`, `gold_num`, `pred_num`,
all zero at construction (`scorer.py` lines 20-22). -/
structure MState where
  tp : Nat
  gold_num : Nat
  pred_num : Nat
deriving DecidableEq, Repr

/-- The freshly constructed accumulator state. -/
def MState.init : MState := ⟨0, 0, 0⟩

/-- The matching loop of `Metric.count_instance` for the non-`set` modes
(`scorer.py` lines 72-78): iterate over predictions in order, test membership
in the working copy of the gold list, and in `normal` mode remove the matched
gold element (Python `list.remove` deletes the first equal occurrence, exactly
as `List.erase`). Returns the `tp` increment. -/
def tupleLoop [DecidableEq α] (mode : Mode) : List α → List α → Nat
  | _, [] => 0
  | dup, p :: ps =>
    if p ∈ dup then
      (if mode = Mode.normal then tupleLoop mode (dup.erase p) ps
       else tupleLoop mode dup ps) + 1
    else tupleLoop mode dup ps

/-- `Metric.count_instance` (`scorer.py` lines 50-78). In `set` mode both lists
are deduplicated as Python sets and `tp` grows by the intersection size; in
`normal` and `multimatch` modes the raw lengths are added and the greedy loop
`tupleLoop` runs over a copy of the gold list. -/
def Metric.count_instance [DecidableEq α] (mode : Mode) (st : MState)
    (gold_list pred_list : List α) : MState :=
  match mode with
  | Mode.set =>
      { tp := st.tp + (gold_list.toFinset ∩ pred_list.toFinset).card
        gold_num := st.gold_num + gold_list.toFinset.card
        pred_num := st.pred_num + pred_list.toFinset.card }
  | Mode.normal =>
      { tp := st.tp + tupleLoop Mode.normal gold_list pred_list
        gold_num := st.gold_num + gold_list.length
        pred_num := st.pred_num + pred_list.length }
  | Mode.multimatch =>
      { tp := st.tp + tupleLoop Mode.multimatch gold_list pred_list
        gold_num := st.gold_num + gold_list.length
        pred_num := st.pred_num + pred_list.length }

/-- `Metric.safe_div` (`scorer.py` lines 30-35): division defaulting to 0 when
the denominator is 0. -/
def Metric.safe_div (a b : ℚ) : ℚ := if b = 0 then 0 else a / b

/-- `Metric.compute_f1` (`scorer.py` lines 37-48): the six-entry result
mapping, keys in the insertion order of the Python dict literal. -/
def Metric.compute_f1 (pre : String) (st : MState) : List (String × ℚ) :=
  let tp : ℚ := st.tp
  let pred_num : ℚ := st.pred_num
  let gold_num : ℚ := st.gold_num
  let p := Metric.safe_div tp pred_num
  let r := Metric.safe_div tp gold_num
  [(pre ++ "tp", tp),
   (pre ++ "gold", gold_num),
   (pre ++ "pred", pred_num),
   (pre ++ "P", p * 100),
   (pre ++ "R", r * 100),
   (pre ++ "F1", Metric.safe_div (2 * p * r) (p + r) * 100)]

/-- One pass of the inner gold loop of `RecordMetric.count_instance`
(`scorer.py` lines 113-119) for a single prediction: the gold records are
carried together with their `non_found` flag; every available structural match
is consumed (flag set to `false`) and counted, and in `normal` mode the scan
stops at the first match. Returns the `tp` increment and the updated flags. -/
def scanGold (eq : β → β → Bool) (mode : Mode) (p : β) :
    List (β × Bool) → Nat × List (β × Bool)
  | [] => (0, [])
  | (g, avail) :: rest =>
    if avail && eq g p then
      if mode = Mode.normal then (1, (g, false) :: rest)
      else
        let next := scanGold eq mode p rest
        (next.1 + 1, (g, false) :: next.2)
    else
      let next := scanGold eq mode p rest
      (next.1, (g, avail) :: next.2)

/-- The outer prediction loop of `RecordMetric.count_instance`
(`scorer.py` lines 111-119): fold `scanGold` over the predictions. -/
def recordLoop (eq : β → β → Bool) (mode : Mode) :
    List (β × Bool) → List β → Nat
  | _, [] => 0
  | st, p :: ps =>
    let next := scanGold eq mode p st
    next.1 + recordLoop eq mode next.2 ps

/-- A composite record as consumed by `RecordMetric.is_equal`: a `type` field,
a `spot` field and an ordered bag of associations `asocs`. -/
structure Record (γ : Type) where
  rtype : String
  spot : String
  asocs : List γ
deriving DecidableEq

/-- `RecordMetric.is_equal` (`scorer.py` lines 87-98): equal `type`, equal
`spot`, equal bag length, then pairwise comparison of the two canonically
sorted bags (Python `sorted`). -/
def RecordMetric.is_equal [LinearOrder γ] (gold pred : Record γ) : Bool :=
  if gold.rtype ≠ pred.rtype then false
  else if gold.spot ≠ pred.spot then false
  else if gold.asocs.length ≠ pred.asocs.length then false
  else
    ((List.insertionSort (· ≤ ·) gold.asocs).zip
      (List.insertionSort (· ≤ ·) pred.asocs)).all fun q => decide (q.1 = q.2)

/-- `OrderedRecordMetric.is_equal` (`scorer.py` lines 124-135): identical to
`RecordMetric.is_equal` but the bags are compared in original sequence order,
without sorting. -/
def OrderedRecordMetric.is_equal [DecidableEq γ] (gold pred : Record γ) : Bool :=
  if gold.rtype ≠ pred.rtype then false
  else if gold.spot ≠ pred.spot then false
  else if gold.asocs.length ≠ pred.asocs.length then false
  else (gold.asocs.zip pred.asocs).all fun q => decide (q.1 = q.2)

/-- The counter update of `RecordMetric.count_instance`
(`scorer.py` lines 104-119), parameterised by the structural equality of the
class (`RecordMetric.is_equal` or the `OrderedRecordMetric` override): counts
grow by the raw lengths and the flag-based scan runs. -/
def RecordMetric.update (eq : β → β → Bool) (mode : Mode) (st : MState)
    (gold_list pred_list : List β) : MState :=
  { tp := st.tp + recordLoop eq mode (gold_list.map fun g => (g, true)) pred_list
    gold_num := st.gold_num + gold_list.length
    pred_num := st.pred_num + pred_list.length }

/-- `RecordMetric.count_instance` wrapped with the `set`-mode rejection of
`scorer.py` lines 101-102: `set` mode raises `NotImplementedError`, every
other mode performs `RecordMetric.update`. -/
def RecordMetric.count_instance (eq : β → β → Bool) (mode : Mode) (st : MState)
    (gold_list pred_list : List β) : Except String MState :=
  if mode = Mode.set then
    Except.error "do not support the match model `set`"
  else
    Except.ok (RecordMetric.update eq mode st gold_list pred_list)

/-- A relation 5-tuple as built by `RelationScorer.load_gold_list`
(`scorer.py` lines 232-245): relation type, first argument type and value,
second argument type and value. The value is an offset tuple on the `offset`
axis and a text string on the `string` axis. -/
structure Rel5 (τ : Type) where
  rtype : String
  t1 : String
  v1 : τ
  t2 : String
  v2 : τ
deriving DecidableEq

/-- The boundary projection `(x[0], x[2], x[4])` of
`RelationScorer.eval_instance_list` (`scorer.py` lines 301-302): strip the two
argument-type fields. -/
def stripRel {τ : Type} (x : Rel5 τ) : String × τ × τ := (x.rtype, x.v1, x.v2)

/-- One canonicalized relation example: the `offset` and `string` axis tuple
lists of a gold or pred instance. -/
structure RelInstance where
  offset : List (Rel5 (List Nat))
  string : List (Rel5 String)
deriving DecidableEq

/-- The four accumulators of `RelationScorer.eval_instance_list`
(`scorer.py` lines 272-280): strict and boundary, each on both axes. -/
structure RelMetrics where
  strictOffset : MState
  strictString : MState
  boundaryOffset : MState
  boundaryString : MState
deriving DecidableEq

/-- All four relation accumulators freshly constructed. -/
def RelMetrics.init : RelMetrics := ⟨MState.init, MState.init, MState.init, MState.init⟩

/-- Body of the example loop of `RelationScorer.eval_instance_list`
(`scorer.py` lines 281-306): the strict metrics see the full 5-tuples, the
boundary metrics see the stripped triples of the same data. The pair `pg` is
`(pred, gold)` as produced by Python `zip(pred_instance_list, gold_instance_list)`. -/
def relStep (mode : Mode) (m : RelMetrics) (pg : RelInstance × RelInstance) : RelMetrics :=
  { strictOffset := Metric.count_instance mode m.strictOffset pg.2.offset pg.1.offset
    strictString := Metric.count_instance mode m.strictString pg.2.string pg.1.string
    boundaryOffset := Metric.count_instance mode m.boundaryOffset
      (pg.2.offset.map stripRel) (pg.1.offset.map stripRel)
    boundaryString := Metric.count_instance mode m.boundaryString
      (pg.2.string.map stripRel) (pg.1.string.map stripRel) }

/-- The accumulator contents after the example loop of
`RelationScorer.eval_instance_list`: Python `zip(pred, gold)` truncates to the
shorter of the two corpora. -/
def RelationScorer.evalMetrics (mode : Mode)
    (gold_instance_list pred_instance_list : List RelInstance) : RelMetrics :=
  (pred_instance_list.zip gold_instance_list).foldl (relStep mode) RelMetrics.init

/-- `RelationScorer.eval_instance_list` result mapping
(`scorer.py` lines 308-313), in the Python update order. -/
def RelationScorer.eval_instance_list (mode : Mode)
    (gold_instance_list pred_instance_list : List RelInstance) : List (String × ℚ) :=
  let m := RelationScorer.evalMetrics mode gold_instance_list pred_instance_list
  Metric.compute_f1 "offset-rel-strict-" m.strictOffset ++
  Metric.compute_f1 "string-rel-strict-" m.strictString ++
  Metric.compute_f1 "offset-rel-boundary-" m.boundaryOffset ++
  Metric.compute_f1 "string-rel-boundary-" m.boundaryString

/-- One canonicalized entity example (`EntityScorer.load_gold_list`,
`scorer.py` lines 163-179): labeled spans on the offset and string axes. -/
structure EntInstance where
  offset : List (String × List Nat)
  string : List (String × String)
deriving DecidableEq

/-- The two accumulators of `EntityScorer.eval_instance_list`
(`scorer.py` lines 197-200), in Python dict insertion order. -/
structure EntMetrics where
  stringM : MState
  offsetM : MState
deriving DecidableEq

/-- Both entity accumulators freshly constructed. -/
def EntMetrics.init : EntMetrics := ⟨MState.init, MState.init⟩

/-- Body of the example loop of `EntityScorer.eval_instance_list`
(`scorer.py` lines 201-213). -/
def entStep (mode : Mode) (m : EntMetrics) (pg : EntInstance × EntInstance) : EntMetrics :=
  { stringM := Metric.count_instance mode m.stringM pg.2.string pg.1.string
    offsetM := Metric.count_instance mode m.offsetM pg.2.offset pg.1.offset }

/-- The accumulator contents after the example loop of
`EntityScorer.eval_instance_list` (`scorer.py` line 201). -/
def EntityScorer.evalMetrics (mode : Mode)
    (gold_instance_list pred_instance_list : List EntInstance) : EntMetrics :=
  (pred_instance_list.zip gold_instance_list).foldl (entStep mode) EntMetrics.init

/-- `EntityScorer.eval_instance_list` result mapping (`scorer.py` lines 215-219). -/
def EntityScorer.eval_instance_list (mode : Mode)
    (gold_instance_list pred_instance_list : List EntInstance) : List (String × ℚ) :=
  let m := EntityScorer.evalMetrics mode gold_instance_list pred_instance_list
  Metric.compute_f1 "string-ent-" m.stringM ++ Metric.compute_f1 "offset-ent-" m.offsetM

/-- One canonicalized event example (`EventScorer.load_gold_list` /
`load_pred_list`, `scorer.py` lines 318-350): trigger and role tuples on both
axes. -/
structure EvtInstance where
  offset_trigger : List (String × List Nat)
  string_trigger : List (String × String)
  offset_role : List (String × String × List Nat)
  string_role : List (String × String × String)
deriving DecidableEq

/-- The four accumulators of `EventScorer.eval_instance_list`
(`scorer.py` lines 355-362). -/
structure EvtMetrics where
  triggerOffset : MState
  triggerString : MState
  roleOffset : MState
  roleString : MState
deriving DecidableEq

/-- All four event accumulators freshly constructed. -/
def EvtMetrics.init : EvtMetrics := ⟨MState.init, MState.init, MState.init, MState.init⟩

/-- Body of the example loop of `EventScorer.eval_instance_list`
(`scorer.py` lines 364-388). -/
def evtStep (mode : Mode) (m : EvtMetrics) (pg : EvtInstance × EvtInstance) : EvtMetrics :=
  { triggerOffset := Metric.count_instance mode m.triggerOffset pg.2.offset_trigger pg.1.offset_trigger
    triggerString := Metric.count_instance mode m.triggerString pg.2.string_trigger pg.1.string_trigger
    roleOffset := Metric.count_instance mode m.roleOffset pg.2.offset_role pg.1.offset_role
    roleString := Metric.count_instance mode m.roleString pg.2.string_role pg.1.string_role }

/-- The accumulator contents after the example loop of
`EventScorer.eval_instance_list` (`scorer.py` line 364). -/
def EventScorer.evalMetrics (mode : Mode)
    (gold_instance_list pred_instance_list : List EvtInstance) : EvtMetrics :=
  (pred_instance_list.zip gold_instance_list).foldl (evtStep mode) EvtMetrics.init

/-- `EventScorer.eval_instance_list` result mapping (`scorer.py` lines 390-396). -/
def EventScorer.eval_instance_list (mode : Mode)
    (gold_instance_list pred_instance_list : List EvtInstance) : List (String × ℚ) :=
  let m := EventScorer.evalMetrics mode gold_instance_list pred_instance_list
  Metric.compute_f1 "offset-evt-trigger-" m.triggerOffset ++
  Metric.compute_f1 "string-evt-trigger-" m.triggerString ++
  Metric.compute_f1 "offset-evt-role-" m.roleOffset ++
  Metric.compute_f1 "string-evt-role-" m.roleString

/-- A relation argument as read by `RelationScorer.load_gold_list`: its
entity type, offset tuple and text. -/
structure RelArg where
  atype : String
  offset : List Nat
  text : String
deriving DecidableEq

/-- A raw gold relation record: a relation type plus its argument list. -/
structure RelRawRecord where
  rtype : String
  args : List RelArg
deriving DecidableEq

/-- One example of `RelationScorer.load_gold_list` (`scorer.py` lines 229-245):
per record, `assert len(record.args) == 2` and append the offset and string
5-tuples built from the two arguments. -/
def loadGoldExample : List RelRawRecord → Except String RelInstance
  | [] => Except.ok ⟨[], []⟩
  | r :: rs =>
    match r.args with
    | [a1, a2] =>
      match loadGoldExample rs with
      | Except.ok rest =>
        Except.ok ⟨⟨r.rtype, a1.atype, a1.offset, a2.atype, a2.offset⟩ :: rest.offset,
                   ⟨r.rtype, a1.atype, a1.text, a2.atype, a2.text⟩ :: rest.string⟩
      | Except.error e => Except.error e
    | _ => Except.error "assert len(args) == 2"

/-- `RelationScorer.load_gold_list` (`scorer.py` lines 226-248): canonicalize
every example, aborting on the first record whose argument count is not 2. -/
def RelationScorer.load_gold_list : List (List RelRawRecord) → Except String (List RelInstance)
  | [] => Except.ok []
  | gold :: rest =>
    match loadGoldExample gold with
    | Except.ok inst =>
      match RelationScorer.load_gold_list rest with
      | Except.ok insts => Except.ok (inst :: insts)
      | Except.error e => Except.error e
    | Except.error e => Except.error e

/-- `Metric.count_instance` with the arity assertion of `scorer.py` lines
68-70 made explicit: tuple items are modelled as lists of strings so that
`len(gold_list[0]) == len(pred_list[0])` is expressible. When both lists are
non-empty and the head arities differ, the call aborts. -/
def Metric.count_instance_checked (mode : Mode) (st : MState)
    (gold_list pred_list : List (List String)) : Except String MState :=
  match mode with
  | Mode.set => Except.ok (Metric.count_instance Mode.set st gold_list pred_list)
  | _ =>
    match gold_list, pred_list with
    | g :: _, p :: _ =>
      if g.length = p.length then
        Except.ok (Metric.count_instance mode st gold_list pred_list)
      else Except.error "assert len(gold_list[0]) == len(pred_list[0])"
    | _, _ => Except.ok (Metric.count_instance mode st gold_list pred_list)

/-- A tiny allocation store modelling Python lists as mutable heap objects:
`mem a` is the list stored at address `a`, and `next` is the first unused
address (every live object lives below `next`). -/
structure Store (α : Type) where
  mem : Nat → List α
  next : Nat

/-- Overwrite the object at address `a`. -/
def Store.write (σ : Store α) (a : Nat) (v : List α) : Store α :=
  ⟨fun x => if x = a then v else σ.mem x, σ.next⟩

/-- `deepcopy`: allocate a fresh object holding the given contents and return
its address. -/
def Store.alloc (σ : Store α) (v : List α) : Store α × Nat :=
  (⟨fun x => if x = σ.next then v else σ.mem x, σ.next + 1⟩, σ.next)

/-- The loop of `Metric.count_instance` (`scorer.py` lines 73-78) acting on
the store: membership tests read the working copy at address `d`, and `normal`
mode writes the removal back to `d`. Returns the store and the tp increment. -/
def tupleLoopRef [DecidableEq α] (mode : Mode) (d : Nat) :
    Store α → List α → Store α × Nat
  | σ, [] => (σ, 0)
  | σ, p :: ps =>
    if p ∈ σ.mem d then
      let σ' := if mode = Mode.normal then σ.write d ((σ.mem d).erase p) else σ
      let next := tupleLoopRef mode d σ' ps
      (next.1, next.2 + 1)
    else tupleLoopRef mode d σ ps

/-- `Metric.count_instance` over the store: the caller's gold and pred lists
live at addresses `gA` and `pA`; the non-`set` branch deep-copies the gold
list to a fresh address (`scorer.py` line 72) and mutates only that copy,
while the `set` branch only rebinds locals and never writes. -/
def Metric.count_instance_ref [DecidableEq α] (mode : Mode) (σ : Store α)
    (st : MState) (gA pA : Nat) : Store α × MState :=
  let gold_list := σ.mem gA
  let pred_list := σ.mem pA
  match mode with
  | Mode.set => (σ, Metric.count_instance Mode.set st gold_list pred_list)
  | _ =>
    let ad := σ.alloc gold_list
    let res := tupleLoopRef mode ad.2 ad.1 pred_list
    (res.1,
      { tp := st.tp + res.2
        gold_num := st.gold_num + gold_list.length
        pred_num := st.pred_num + pred_list.length })

/-- `RecordMetric.count_instance` over the store: it reads the two lists and
mutates only the local `non_found` flag array, never the store
(`scorer.py` lines 100-119 perform no write to either argument). -/
def RecordMetric.count_instance_ref (eq : β → β → Bool) (mode : Mode)
    (σ : Store β) (st : MState) (gA pA : Nat) : Store β × Except String MState :=
  (σ, RecordMetric.count_instance eq mode st (σ.mem gA) (σ.mem pA))

section TupleLoopLemmas

variable {α : Type} [DecidableEq α] {β : Type} [DecidableEq β]

/-- The greedy loop counts at most one match per prediction, in every mode. -/
theorem tupleLoop_le_pred (mode : Mode) :
    ∀ (pred gold : List α), tupleLoop mode gold pred ≤ pred.length := by
  intro pred
  induction pred with
  | nil => intro gold; simp [tupleLoop]
  | cons p ps ih =>
    intro gold
    simp only [tupleLoop, List.length_cons]
    split
    · split
      · exact Nat.add_le_add_right (ih _) 1
      · exact Nat.add_le_add_right (ih _) 1
    · exact Nat.le_succ_of_le (ih _)

/-- In `normal` mode every counted match removes one element of the working
gold copy, so the count is bounded by the gold length. -/
theorem tupleLoop_normal_le_gold :
    ∀ (pred gold : List α), tupleLoop Mode.normal gold pred ≤ gold.length := by
  intro pred
  induction pred with
  | nil => intro gold; simp [tupleLoop]
  | cons p ps ih =>
    intro gold
    simp only [tupleLoop, reduceIte]
    split
    · rename_i hmem
      have h1 : tupleLoop Mode.normal (gold.erase p) ps ≤ (gold.erase p).length := ih _
      have h2 : (gold.erase p).length = gold.length - 1 := List.length_erase_of_mem hmem
      have h3 : 0 < gold.length := List.length_pos.mpr (List.ne_nil_of_mem hmem)
      omega
    · exact ih _

/-- In `multimatch` mode the working copy is never changed, so the loop counts
exactly the predictions present in the gold list. -/
theorem tupleLoop_multimatch_eq_filter :
    ∀ (pred gold : List α), tupleLoop Mode.multimatch gold pred
      = (pred.filter fun p => decide (p ∈ gold)).length := by
  intro pred
  induction pred with
  | nil => intro gold; simp [tupleLoop]
  | cons p ps ih =>
    intro gold
    by_cases h : p ∈ gold
    · simp [tupleLoop, h, ih]
    · simp [tupleLoop, h, ih]

end TupleLoopLemmas

section RecordLoopLemmas

variable {β : Type}

/-- The number of gold records still available (`non_found` flags). -/
def countAvail (st : List (β × Bool)) : Nat := (st.filter fun gb => gb.2).length

/-- Every `tp` increment of the inner scan consumes exactly one available
gold flag, in both `normal` and `multimatch` mode. -/
theorem scanGold_add_avail (eq : β → β → Bool) (mode : Mode) (p : β) :
    ∀ st : List (β × Bool),
      (scanGold eq mode p st).1 + countAvail (scanGold eq mode p st).2 = countAvail st := by
  intro st
  induction st with
  | nil => simp [scanGold, countAvail]
  | cons gb rest ih =>
    obtain ⟨g, avail⟩ := gb
    by_cases h : (avail && eq g p) = true
    · have havail : avail = true := by
        cases avail
        · simp at h
        · rfl
      subst havail
      by_cases hm : mode = Mode.normal
      · subst hm
        simp only [scanGold, h, if_true]
        simp only [countAvail, List.filter_cons]
        simp only [show ((⟨g, false⟩ : β × Bool).2 = true) = False by simp,
          show ((⟨g, true⟩ : β × Bool).2 = true) = True by simp, if_false, if_true,
          List.length_cons]
        omega
      · simp only [scanGold, h, if_true, if_neg hm]
        simp only [countAvail, List.filter_cons] at ih ⊢
        simp only [show ((⟨g, false⟩ : β × Bool).2 = true) = False by simp,
          show ((⟨g, true⟩ : β × Bool).2 = true) = True by simp, if_false, if_true,
          List.length_cons]
        omega
    · simp only [scanGold, if_neg h]
      simp only [countAvail, List.filter_cons] at ih ⊢
      cases avail
      · simp only [show ((⟨g, false⟩ : β × Bool).2 = true) = False by simp, if_false]
        omega
      · simp only [show ((⟨g, true⟩ : β × Bool).2 = true) = True by simp, if_true,
          List.length_cons]
        omega

/-- In `normal` mode the inner scan stops at the first match, so one
prediction contributes at most one `tp`. -/
theorem scanGold_normal_le_one (eq : β → β → Bool) (p : β) :
    ∀ st : List (β × Bool), (scanGold eq Mode.normal p st).1 ≤ 1 := by
  intro st
  induction st with
  | nil => simp [scanGold]
  | cons gb rest ih =>
    obtain ⟨g, avail⟩ := gb
    by_cases h : (avail && eq g p) = true
    · simp [scanGold, h]
    · simp only [scanGold, if_neg h]
      exact ih

/-- The record loop never counts more than the number of initially available
gold records, in both `normal` and `multimatch` mode: each count consumes a
flag and flags are never restored. -/
theorem recordLoop_le_avail (eq : β → β → Bool) (mode : Mode) :
    ∀ (pred : List β) (st : List (β × Bool)), recordLoop eq mode st pred ≤ countAvail st := by
  intro pred
  induction pred with
  | nil => intro st; simp [recordLoop]
  | cons p ps ih =>
    intro st
    simp only [recordLoop]
    have h := scanGold_add_avail eq mode p st
    have h2 := ih (scanGold eq mode p st).2
    omega

/-- In `normal` mode the record loop counts at most one match per prediction. -/
theorem recordLoop_normal_le_pred (eq : β → β → Bool) :
    ∀ (pred : List β) (st : List (β × Bool)),
      recordLoop eq Mode.normal st pred ≤ pred.length := by
  intro pred
  induction pred with
  | nil => intro st; simp [recordLoop]
  | cons p ps ih =>
    intro st
    simp only [recordLoop, List.length_cons]
    have h := scanGold_normal_le_one eq p st
    have h2 := ih (scanGold eq Mode.normal p st).2
    omega

/-- All flags are available at the start of `RecordMetric.count_instance`. -/
theorem countAvail_init (gold : List β) :
    countAvail (gold.map fun g => (g, true)) = gold.length := by
  induction gold with
  | nil => simp [countAvail]
  | cons g gs ih =>
    simp only [List.map_cons, countAvail, List.filter_cons] at ih ⊢
    simp only [show ((⟨g, true⟩ : β × Bool).2 = true) = True by simp, if_true,
      List.length_cons]
    omega

end RecordLoopLemmas

section ProjectionLemmas

variable {α : Type} [DecidableEq α] {β : Type} [DecidableEq β]

/-- Removing one gold element lowers the greedy `normal` count by at most 1. -/
theorem tupleLoop_normal_erase_ge (a : α) :
    ∀ (pred gold : List α),
      tupleLoop Mode.normal gold pred ≤ tupleLoop Mode.normal (gold.erase a) pred + 1 := by
  intro pred
  induction pred with
  | nil => intro gold; simp [tupleLoop]
  | cons p ps ih =>
    intro gold
    by_cases hpg : p ∈ gold
    · by_cases hpe : p ∈ gold.erase a
      · simp only [tupleLoop, if_pos hpg, if_pos hpe, reduceIte]
        have hih := ih (gold.erase p)
        rw [List.erase_comm] at hih
        omega
      · have hap : a = p := by
          by_contra hne
          exact hpe ((List.mem_erase_of_ne fun h => hne h.symm).mpr hpg)
        subst hap
        simp only [tupleLoop, if_pos hpg, if_neg hpe, reduceIte]
        omega
    · have hpe : p ∉ gold.erase a := fun h => hpg (List.mem_of_mem_erase h)
      simp only [tupleLoop, if_neg hpg, if_neg hpe]
      exact ih gold

/-- At multiset level, erasing an element and then mapping is the same as
mapping and then erasing the image (no injectivity needed: only one occurrence
is removed on each side). -/
theorem map_erase_eq_erase_map (f : α → β) {s : Multiset α} {p : α} (h : p ∈ s) :
    Multiset.map f (s.erase p) = (Multiset.map f s).erase (f p) := by
  conv_rhs => rw [← Multiset.cons_erase h]
  rw [Multiset.map_cons, Multiset.erase_cons_head]

/-- Greedy one-to-one matching is monotone under projecting both sides by any
function `f`, as long as the projected gold multiset is contained in the gold
multiset the projected predictions are matched against: coarsening the
equality can merge classes but never lowers the match count. -/
theorem tupleLoop_normal_map_le (f : α → β) :
    ∀ (pred : List α) (gold₁ : List α) (gold₂ : List β),
      (↑(gold₁.map f) : Multiset β) ≤ ↑gold₂ →
      tupleLoop Mode.normal gold₁ pred ≤ tupleLoop Mode.normal gold₂ (pred.map f) := by
  intro pred
  induction pred with
  | nil => intro g₁ g₂ _; simp [tupleLoop]
  | cons p ps ih =>
    intro g₁ g₂ hle
    by_cases hp : p ∈ g₁
    · have hfp : f p ∈ g₂ := by
        have h1 : f p ∈ (↑(g₁.map f) : Multiset β) := by
          rw [Multiset.mem_coe]
          exact List.mem_map_of_mem f hp
        exact Multiset.mem_coe.mp (Multiset.mem_of_le hle h1)
      simp only [List.map_cons, tupleLoop, if_pos hp, if_pos hfp, reduceIte]
      have hnext : (↑((g₁.erase p).map f) : Multiset β) ≤ ↑(g₂.erase (f p)) := by
        rw [← Multiset.coe_erase, ← Multiset.map_coe, ← Multiset.coe_erase,
          map_erase_eq_erase_map f (Multiset.mem_coe.mpr hp), Multiset.map_coe]
        exact Multiset.erase_le_erase _ hle
      exact Nat.add_le_add_right (ih _ _ hnext) 1
    · by_cases hfp : f p ∈ g₂
      · simp only [List.map_cons, tupleLoop, if_neg hp, if_pos hfp, reduceIte]
        calc tupleLoop Mode.normal g₁ ps ≤ tupleLoop Mode.normal g₂ (ps.map f) :=
              ih _ _ hle
          _ ≤ tupleLoop Mode.normal (g₂.erase (f p)) (ps.map f) + 1 :=
              tupleLoop_normal_erase_ge (f p) _ _
      · simp only [List.map_cons, tupleLoop, if_neg hp, if_neg hfp]
        exact ih _ _ hle

/-- `multimatch` matching is monotone under projecting both sides: membership
is preserved by mapping. -/
theorem tupleLoop_multimatch_map_le (f : α → β) :
    ∀ (pred gold : List α),
      tupleLoop Mode.multimatch gold pred
        ≤ tupleLoop Mode.multimatch (gold.map f) (pred.map f) := by
  intro pred
  induction pred with
  | nil => intro gold; simp [tupleLoop]
  | cons p ps ih =>
    intro gold
    by_cases hp : p ∈ gold
    · have hfp : f p ∈ gold.map f := List.mem_map_of_mem f hp
      simp only [List.map_cons, tupleLoop, if_pos hp, if_pos hfp, reduceIte]
      exact Nat.add_le_add_right (ih gold) 1
    · by_cases hfp : f p ∈ gold.map f
      · simp only [List.map_cons, tupleLoop, if_neg hp, if_pos hfp, reduceIte]
        exact Nat.le_succ_of_le (ih gold)
      · simp only [List.map_cons, tupleLoop, if_neg hp, if_neg hfp]
        exact ih gold

/-- The tp increment of `Metric.count_instance` never decreases when both
lists are projected by `f`, in `normal` and `multimatch` mode. -/
theorem tupleLoop_map_le (f : α → β) (mode : Mode)
    (h : mode = Mode.normal ∨ mode = Mode.multimatch) (gold pred : List α) :
    tupleLoop mode gold pred ≤ tupleLoop mode (gold.map f) (pred.map f) := by
  rcases h with h | h
  · subst h
    exact tupleLoop_normal_map_le f pred gold (gold.map f) (le_refl _)
  · subst h
    exact tupleLoop_multimatch_map_le f pred gold

end ProjectionLemmas

section MiscLemmas

variable {α : Type} {β : Type}

/-- Pairwise equality of the zipped lists, written index-wise. -/
theorem zip_all_eq_iff [DecidableEq α] :
    ∀ (l₁ l₂ : List α), ((l₁.zip l₂).all fun q => decide (q.1 = q.2)) = true ↔
      ∀ (i : Nat) (h₁ : i < l₁.length) (h₂ : i < l₂.length), l₁.get ⟨i, h₁⟩ = l₂.get ⟨i, h₂⟩
  | [], l₂ => by simp
  | a :: l₁, [] => by simp
  | a :: l₁, b :: l₂ => by
    simp only [List.zip_cons_cons, List.all_cons, Bool.and_eq_true, decide_eq_true_eq]
    constructor
    · rintro ⟨hab, h⟩ i h₁ h₂
      cases i with
      | zero => exact hab
      | succ n =>
        exact (zip_all_eq_iff l₁ l₂).mp h n (Nat.lt_of_succ_lt_succ h₁)
          (Nat.lt_of_succ_lt_succ h₂)
    · intro h
      refine ⟨h 0 (Nat.succ_pos _) (Nat.succ_pos _), (zip_all_eq_iff l₁ l₂).mpr ?_⟩
      intro i h₁ h₂
      exact h (i + 1) (Nat.succ_lt_succ h₁) (Nat.succ_lt_succ h₂)

/-- Python `zip` truncates to the shorter list: zipping is unchanged when both
lists are cut at the common length. -/
theorem zip_eq_zip_take :
    ∀ (l₁ : List α) (l₂ : List β),
      l₁.zip l₂ = (l₁.take (min l₁.length l₂.length)).zip (l₂.take (min l₁.length l₂.length))
  | [], l₂ => by simp
  | a :: l₁, [] => by simp
  | a :: l₁, b :: l₂ => by
    simp only [List.zip_cons_cons, List.length_cons, Nat.succ_min_succ,
      List.take_succ_cons]
    rw [← zip_eq_zip_take l₁ l₂]

/-- Appending on the left of a string is injective. -/
theorem string_append_left_cancel {pre a b : String} (h : pre ++ a = pre ++ b) : a = b := by
  have hd : (pre ++ a).data = (pre ++ b).data := by rw [h]
  simp only [String.data_append] at hd
  have hab := List.append_cancel_left hd
  cases a with
  | mk da =>
    cases b with
    | mk db => exact congrArg String.mk hab

end MiscLemmas

section StoreLemmas

variable {α : Type} [DecidableEq α]

/-- The reference loop of the accumulator writes only the working-copy
address `d`: every other address keeps its contents, and no allocation
happens. -/
theorem tupleLoopRef_frame (mode : Mode) (d : Nat) :
    ∀ (pred : List α) (σ : Store α) (a : Nat), a ≠ d →
      (tupleLoopRef mode d σ pred).1.mem a = σ.mem a ∧
      (tupleLoopRef mode d σ pred).1.next = σ.next := by
  intro pred
  induction pred with
  | nil => intro σ a _; exact ⟨rfl, rfl⟩
  | cons p ps ih =>
    intro σ a ha
    by_cases hm : p ∈ σ.mem d
    · simp only [tupleLoopRef, if_pos hm]
      by_cases hmode : mode = Mode.normal
      · simp only [if_pos hmode]
        have := ih (σ.write d ((σ.mem d).erase p)) a ha
        simpa [Store.write, if_neg ha] using this
      · simp only [if_neg hmode]
        exact ih σ a ha
    · simp only [tupleLoopRef, if_neg hm]
      exact ih σ a ha

/-- The tp count of the reference loop agrees with the pure loop run on the
contents of the working copy. -/
theorem tupleLoopRef_count (mode : Mode) (d : Nat) :
    ∀ (pred : List α) (σ : Store α),
      (tupleLoopRef mode d σ pred).2 = tupleLoop mode (σ.mem d) pred := by
  intro pred
  induction pred with
  | nil => intro σ; rfl
  | cons p ps ih =>
    intro σ
    by_cases hm : p ∈ σ.mem d
    · simp only [tupleLoopRef, tupleLoop, if_pos hm]
      by_cases hmode : mode = Mode.normal
      · simp only [if_pos hmode]
        have := ih (σ.write d ((σ.mem d).erase p))
        rw [this]
        simp [Store.write]
      · simp only [if_neg hmode]
        rw [ih σ]
    · simp only [tupleLoopRef, tupleLoop, if_neg hm]
      exact ih σ

end StoreLemmas

section InvariantLemmas

/-- One `Metric.count_instance` call preserves `tp ≤ min gold_num pred_num`
in `set` and `normal` mode. -/
theorem count_instance_inv {α : Type} [DecidableEq α] (mode : Mode)
    (h : mode = Mode.set ∨ mode = Mode.normal) (st : MState) (gold pred : List α)
    (hst : st.tp ≤ min st.gold_num st.pred_num) :
    (Metric.count_instance mode st gold pred).tp ≤
      min (Metric.count_instance mode st gold pred).gold_num
        (Metric.count_instance mode st gold pred).pred_num := by
  rw [Nat.le_min] at hst
  rcases h with h | h
  · subst h
    simp only [Metric.count_instance]
    have h1 : (gold.toFinset ∩ pred.toFinset).card ≤ gold.toFinset.card :=
      Finset.card_le_card Finset.inter_subset_left
    have h2 : (gold.toFinset ∩ pred.toFinset).card ≤ pred.toFinset.card :=
      Finset.card_le_card Finset.inter_subset_right
    rw [Nat.le_min]
    constructor <;> omega
  · subst h
    simp only [Metric.count_instance]
    have h1 := tupleLoop_normal_le_gold pred gold
    have h2 := tupleLoop_le_pred Mode.normal pred gold
    rw [Nat.le_min]
    constructor <;> omega

/-- One `RecordMetric.update` call in `normal` mode preserves
`tp ≤ min gold_num pred_num`. -/
theorem record_update_normal_inv {β : Type} (eq : β → β → Bool) (st : MState)
    (gold pred : List β) (hst : st.tp ≤ min st.gold_num st.pred_num) :
    (RecordMetric.update eq Mode.normal st gold pred).tp ≤
      min (RecordMetric.update eq Mode.normal st gold pred).gold_num
        (RecordMetric.update eq Mode.normal st gold pred).pred_num := by
  rw [Nat.le_min] at hst
  simp only [RecordMetric.update]
  have h1 : recordLoop eq Mode.normal (gold.map fun g => (g, true)) pred ≤ gold.length := by
    have h := recordLoop_le_avail eq Mode.normal pred (gold.map fun g => (g, true))
    rwa [countAvail_init] at h
  have h2 := recordLoop_normal_le_pred eq pred (gold.map fun g => (g, true))
  rw [Nat.le_min]
  constructor <;> omega

/-- Folding any step that preserves `tp ≤ min gold_num pred_num` keeps the
invariant. -/
theorem foldl_tp_le_min {σ : Type} (step : MState → σ → MState)
    (hstep : ∀ st c, st.tp ≤ min st.gold_num st.pred_num →
      (step st c).tp ≤ min (step st c).gold_num (step st c).pred_num) :
    ∀ (calls : List σ) (st : MState), st.tp ≤ min st.gold_num st.pred_num →
      (calls.foldl step st).tp ≤
        min (calls.foldl step st).gold_num (calls.foldl step st).pred_num := by
  intro calls
  induction calls with
  | nil => intro st h; exact h
  | cons c cs ih => intro st h; exact ih (step st c) (hstep st c h)

end InvariantLemmas

/-- C1 (amended): for the tuple accumulator `Metric` in `set` and `normal`
mode, and for the record accumulators (`RecordMetric`/`OrderedRecordMetric`,
any structural equality) in `normal` mode — their only other supported mode,
since `set` raises — every sequence of `count_instance` calls from a fresh
accumulator keeps `tp ≤ min gold_num pred_num`. In `multimatch` mode the
stated invariant is false, see the counterexample. -/
theorem tp_le_min_after_count_instance_calls :
    (∀ (α : Type) [inst : DecidableEq α] (mode : Mode),
      mode = Mode.set ∨ mode = Mode.normal →
      ∀ calls : List (List α × List α),
        (calls.foldl (fun st c => Metric.count_instance mode st c.1 c.2) MState.init).tp ≤
          min (calls.foldl (fun st c => Metric.count_instance mode st c.1 c.2) MState.init).gold_num
            (calls.foldl (fun st c => Metric.count_instance mode st c.1 c.2) MState.init).pred_num) ∧
    (∀ (β : Type) (eq : β → β → Bool) (calls : List (List β × List β)),
        (calls.foldl (fun st c => RecordMetric.update eq Mode.normal st c.1 c.2) MState.init).tp ≤
          min (calls.foldl (fun st c => RecordMetric.update eq Mode.normal st c.1 c.2) MState.init).gold_num
            (calls.foldl (fun st c => RecordMetric.update eq Mode.normal st c.1 c.2) MState.init).pred_num) := by
  constructor
  · intro α inst mode h calls
    apply foldl_tp_le_min
      (fun (st : MState) (c : List α × List α) => Metric.count_instance mode st c.1 c.2)
    · exact fun st c => count_instance_inv mode h st c.1 c.2
    · exact Nat.zero_le _
  · intro β eq calls
    apply foldl_tp_le_min
      (fun (st : MState) (c : List β × List β) => RecordMetric.update eq Mode.normal st c.1 c.2)
    · exact fun st c => record_update_normal_inv eq st c.1 c.2
    · exact Nat.zero_le _

/-- C1 counterexample: in `multimatch` mode a single gold occurrence satisfies
two equal predictions, so after one `count_instance` call tp = 2 while
gold_num = 1 and pred_num = 2, violating tp ≤ min(gold_num, pred_num). -/
theorem tp_le_min_multimatch_counterexample :
    (Metric.count_instance Mode.multimatch MState.init
        [("PER", "a")] [("PER", "a"), ("PER", "a")]).tp = 2 ∧
    (Metric.count_instance Mode.multimatch MState.init
        [("PER", "a")] [("PER", "a"), ("PER", "a")]).gold_num = 1 ∧
    (Metric.count_instance Mode.multimatch MState.init
        [("PER", "a")] [("PER", "a"), ("PER", "a")]).pred_num = 2 ∧
    ¬ ((Metric.count_instance Mode.multimatch MState.init
        [("PER", "a")] [("PER", "a"), ("PER", "a")]).tp ≤
      min (Metric.count_instance Mode.multimatch MState.init
          [("PER", "a")] [("PER", "a"), ("PER", "a")]).gold_num
        (Metric.count_instance Mode.multimatch MState.init
          [("PER", "a")] [("PER", "a"), ("PER", "a")]).pred_num) := by
  decide

/-- Witness for the amended C1 at concrete calls in `normal` mode (tuple
accumulator) and in `normal` mode (record accumulator). -/
theorem tp_le_min_witness :
    (([([(1 : Nat)], [1, 1]), ([2], [2])].foldl
        (fun st c => Metric.count_instance Mode.normal st c.1 c.2) MState.init).tp ≤
      min ([([(1 : Nat)], [1, 1]), ([2], [2])].foldl
          (fun st c => Metric.count_instance Mode.normal st c.1 c.2) MState.init).gold_num
        ([([(1 : Nat)], [1, 1]), ([2], [2])].foldl
          (fun st c => Metric.count_instance Mode.normal st c.1 c.2) MState.init).pred_num) ∧
    (([([(1 : Nat), 1], [1])].foldl
        (fun st c => RecordMetric.update (fun a b => a == b) Mode.normal st c.1 c.2) MState.init).tp ≤
      min ([([(1 : Nat), 1], [1])].foldl
          (fun st c => RecordMetric.update (fun a b => a == b) Mode.normal st c.1 c.2) MState.init).gold_num
        ([([(1 : Nat), 1], [1])].foldl
          (fun st c => RecordMetric.update (fun a b => a == b) Mode.normal st c.1 c.2) MState.init).pred_num) :=
  ⟨tp_le_min_after_count_instance_calls.1 Nat Mode.normal (Or.inr rfl)
      [([1], [1, 1]), ([2], [2])],
   tp_le_min_after_count_instance_calls.2 Nat (fun a b => a == b) [([1, 1], [1])]⟩

/-- C3: In `normal` mode `Metric.count_instance` performs greedy one-to-one
matching — each prediction, in prediction order, consumes the first equal
element of the working gold copy, so the tp increment is bounded by both list
lengths (each gold item serves at most one prediction) — and on gold
`[("PER","a"),("PER","a")]` with pred `[("PER","a")]` it yields tp = 1,
gold_num = 2, pred_num = 1, hence P = 100 and R = 50. -/
theorem normal_mode_greedy_one_to_one :
    (∀ (α : Type) [inst : DecidableEq α] (gold pred : List α),
        tupleLoop Mode.normal gold pred ≤ gold.length ∧
        tupleLoop Mode.normal gold pred ≤ pred.length) ∧
    Metric.count_instance Mode.normal MState.init
        [("PER", "a"), ("PER", "a")] [("PER", "a")] = ⟨1, 2, 1⟩ ∧
    Metric.compute_f1 "" ⟨1, 2, 1⟩ =
      [("tp", 1), ("gold", 2), ("pred", 1), ("P", 100), ("R", 50), ("F1", 200 / 3)] := by
  refine ⟨?_, by decide, by norm_num [Metric.compute_f1, Metric.safe_div]⟩
  intro α inst gold pred
  exact ⟨tupleLoop_normal_le_gold pred gold, tupleLoop_le_pred Mode.normal pred gold⟩

/-- C4: In `multimatch` mode `Metric.count_instance` never removes matched
gold elements — the tp increment is exactly the number of predictions present
in the unchanged gold list — while `gold_num`/`pred_num` grow by the raw list
lengths; gold `[("PER","a"),("PER","a")]` with pred `[("PER","a")]` gives
tp = 1, and pred `[("PER","a"),("PER","a")]` against the same gold gives
tp = 2. -/
theorem multimatch_mode_no_removal :
    (∀ (α : Type) [inst : DecidableEq α] (st : MState) (gold pred : List α),
      Metric.count_instance Mode.multimatch st gold pred =
        ⟨st.tp + (pred.filter fun p => decide (p ∈ gold)).length,
         st.gold_num + gold.length, st.pred_num + pred.length⟩) ∧
    (Metric.count_instance Mode.multimatch MState.init
        [("PER", "a"), ("PER", "a")] [("PER", "a")]).tp = 1 ∧
    (Metric.count_instance Mode.multimatch MState.init
        [("PER", "a"), ("PER", "a")] [("PER", "a"), ("PER", "a")]).tp = 2 := by
  refine ⟨?_, by decide, by decide⟩
  intro α inst st gold pred
  simp only [Metric.count_instance, tupleLoop_multimatch_eq_filter]

/-- C5: `Metric.compute_f1` returns exactly the six pairwise-distinct keys
`tp`, `gold`, `pred`, `P`, `R`, `F1` under the given prefix, with
P = 100·tp/pred_num and R = 100·tp/gold_num, each 0 when its denominator is
0 (no division by zero is ever performed), and F1 = 100·2pr/(p+r) over the
unscaled ratios p, r, 0 when p + r = 0. -/
theorem compute_f1_shape :
    ∀ (pre : String) (st : MState),
      ((Metric.compute_f1 pre st).map Prod.fst =
        [pre ++ "tp", pre ++ "gold", pre ++ "pred", pre ++ "P", pre ++ "R", pre ++ "F1"]) ∧
      ((Metric.compute_f1 pre st).map Prod.fst).Nodup ∧
      Metric.compute_f1 pre st =
        [(pre ++ "tp", (st.tp : ℚ)),
         (pre ++ "gold", (st.gold_num : ℚ)),
         (pre ++ "pred", (st.pred_num : ℚ)),
         (pre ++ "P", if (st.pred_num : ℚ) = 0 then 0 else 100 * st.tp / st.pred_num),
         (pre ++ "R", if (st.gold_num : ℚ) = 0 then 0 else 100 * st.tp / st.gold_num),
         (pre ++ "F1",
           if (if (st.pred_num : ℚ) = 0 then 0 else (st.tp : ℚ) / st.pred_num) +
               (if (st.gold_num : ℚ) = 0 then 0 else (st.tp : ℚ) / st.gold_num) = 0 then 0
           else 100 * (2 * (if (st.pred_num : ℚ) = 0 then 0 else (st.tp : ℚ) / st.pred_num) *
               (if (st.gold_num : ℚ) = 0 then 0 else (st.tp : ℚ) / st.gold_num)) /
             ((if (st.pred_num : ℚ) = 0 then 0 else (st.tp : ℚ) / st.pred_num) +
               (if (st.gold_num : ℚ) = 0 then 0 else (st.tp : ℚ) / st.gold_num)))] := by
  intro pre st
  have hne : ∀ a b : String, a ≠ b → pre ++ a ≠ pre ++ b :=
    fun a b h hc => h (string_append_left_cancel hc)
  refine ⟨by simp [Metric.compute_f1], ?_, ?_⟩
  · have hkeys : (Metric.compute_f1 pre st).map Prod.fst =
        ["tp", "gold", "pred", "P", "R", "F1"].map fun s => pre ++ s := by
      simp [Metric.compute_f1]
    rw [hkeys]
    exact List.Nodup.map (fun a b hab => string_append_left_cancel hab) (by decide)
  · simp only [Metric.compute_f1, Metric.safe_div, List.cons.injEq, Prod.mk.injEq,
      and_true, true_and]
    refine ⟨?_, ?_, ?_⟩ <;> split_ifs <;> ring

/-- C6: In `set` mode `Metric.count_instance` deduplicates both lists as sets,
increments tp by the size of their intersection and the counters by the
deduplicated sizes, so the increments depend only on which elements occur:
duplicating elements inside the inputs of a single call changes nothing. -/
theorem set_mode_dedup_intersection :
    (∀ (α : Type) [inst : DecidableEq α] (st : MState) (gold pred : List α),
      Metric.count_instance Mode.set st gold pred =
        ⟨st.tp + (gold.toFinset ∩ pred.toFinset).card,
         st.gold_num + gold.toFinset.card,
         st.pred_num + pred.toFinset.card⟩) ∧
    (∀ (α : Type) [inst : DecidableEq α] (st : MState) (gold gold2 pred pred2 : List α),
      (∀ x, x ∈ gold2 ↔ x ∈ gold) → (∀ x, x ∈ pred2 ↔ x ∈ pred) →
      Metric.count_instance Mode.set st gold2 pred2 =
        Metric.count_instance Mode.set st gold pred) := by
  constructor
  · intro α inst st gold pred
    rfl
  · intro α inst st gold gold2 pred pred2 hg hp
    have hgf : gold2.toFinset = gold.toFinset := by
      ext x
      simp only [List.mem_toFinset]
      exact hg x
    have hpf : pred2.toFinset = pred.toFinset := by
      ext x
      simp only [List.mem_toFinset]
      exact hp x
    simp only [Metric.count_instance, hgf, hpf]

/-- Witness for C6: duplicating `1` in the gold list and `2` in the pred list
leaves the `set`-mode update unchanged. -/
theorem set_mode_dedup_witness :
    Metric.count_instance Mode.set MState.init [1, 1, 2] [2, 2] =
      Metric.count_instance Mode.set MState.init [(1 : Nat), 2] [2] :=
  set_mode_dedup_intersection.2 Nat MState.init [1, 2] [1, 1, 2] [2] [2, 2]
    (fun x => by simp [List.mem_cons]) (fun x => by simp)

/-- In the two non-`set` modes the tp of one call is the old tp plus the loop
count. -/
theorem count_instance_tp_nonset {α : Type} [DecidableEq α] (mode : Mode)
    (h : mode ≠ Mode.set) (st : MState) (gold pred : List α) :
    (Metric.count_instance mode st gold pred).tp = st.tp + tupleLoop mode gold pred := by
  cases mode with
  | set => exact absurd rfl h
  | normal => rfl
  | multimatch => rfl

/-- Through the whole example loop of `RelationScorer.eval_instance_list`,
in `normal` or `multimatch` mode, the boundary accumulators' tp dominance over
the strict accumulators' tp is preserved on both axes. -/
theorem relFold_boundary_ge (mode : Mode)
    (h : mode = Mode.normal ∨ mode = Mode.multimatch) :
    ∀ (pairs : List (RelInstance × RelInstance)) (m : RelMetrics),
      m.strictOffset.tp ≤ m.boundaryOffset.tp →
      m.strictString.tp ≤ m.boundaryString.tp →
      (pairs.foldl (relStep mode) m).strictOffset.tp ≤
          (pairs.foldl (relStep mode) m).boundaryOffset.tp ∧
        (pairs.foldl (relStep mode) m).strictString.tp ≤
          (pairs.foldl (relStep mode) m).boundaryString.tp := by
  have hne : mode ≠ Mode.set := by rcases h with h | h <;> subst h <;> simp
  intro pairs
  induction pairs with
  | nil => intro m h1 h2; exact ⟨h1, h2⟩
  | cons pg rest ih =>
    intro m h1 h2
    apply ih
    · simp only [relStep, count_instance_tp_nonset mode hne]
      have hmap := tupleLoop_map_le stripRel mode h pg.2.offset pg.1.offset
      omega
    · simp only [relStep, count_instance_tp_nonset mode hne]
      have hmap := tupleLoop_map_le stripRel mode h pg.2.string pg.1.string
      omega

/-- C2 (amended): in `RelationScorer.eval_instance_list`, for the `normal` and
`multimatch` match modes, on both axes the boundary accumulator's tp is ≥ the
strict accumulator's tp — over any corpus and for the increment of any single
example pair — because the boundary lists are the strict lists with the two
argument-type fields stripped (`stripRel`) and stripping is a matching
relaxation. In `set` mode the claimed inequality is false, see the
counterexample: deduplication can merge distinct stripped gold tuples. -/
theorem relation_boundary_tp_ge_strict_tp :
    ∀ (mode : Mode), mode = Mode.normal ∨ mode = Mode.multimatch →
      (∀ gold_instance_list pred_instance_list : List RelInstance,
        (RelationScorer.evalMetrics mode gold_instance_list pred_instance_list).strictOffset.tp ≤
            (RelationScorer.evalMetrics mode gold_instance_list pred_instance_list).boundaryOffset.tp ∧
          (RelationScorer.evalMetrics mode gold_instance_list pred_instance_list).strictString.tp ≤
            (RelationScorer.evalMetrics mode gold_instance_list pred_instance_list).boundaryString.tp) ∧
      (∀ (st : MState) (g p : RelInstance),
        (Metric.count_instance mode st g.offset p.offset).tp ≤
            (Metric.count_instance mode st (g.offset.map stripRel) (p.offset.map stripRel)).tp ∧
          (Metric.count_instance mode st g.string p.string).tp ≤
            (Metric.count_instance mode st (g.string.map stripRel) (p.string.map stripRel)).tp) := by
  intro mode h
  have hne : mode ≠ Mode.set := by rcases h with h | h <;> subst h <;> simp
  constructor
  · intro gold_instance_list pred_instance_list
    exact relFold_boundary_ge mode h _ RelMetrics.init (Nat.le_refl _) (Nat.le_refl _)
  · intro st g p
    constructor
    · simp only [count_instance_tp_nonset mode hne]
      have hmap := tupleLoop_map_le stripRel mode h g.offset p.offset
      omega
    · simp only [count_instance_tp_nonset mode hne]
      have hmap := tupleLoop_map_le stripRel mode h g.string p.string
      omega

/-- C2 counterexample: in `set` mode, with a gold and an identical pred
instance holding two 5-tuples that differ only in an argument type, the strict
metric counts 2 but the stripped boundary tuples collapse to one set element,
so the boundary tp is 1 < 2. -/
theorem relation_boundary_set_counterexample :
    (RelationScorer.evalMetrics Mode.set
        [⟨[⟨"R", "A", [0], "B", [1]⟩, ⟨"R", "C", [0], "B", [1]⟩], []⟩]
        [⟨[⟨"R", "A", [0], "B", [1]⟩, ⟨"R", "C", [0], "B", [1]⟩], []⟩]).strictOffset.tp = 2 ∧
    (RelationScorer.evalMetrics Mode.set
        [⟨[⟨"R", "A", [0], "B", [1]⟩, ⟨"R", "C", [0], "B", [1]⟩], []⟩]
        [⟨[⟨"R", "A", [0], "B", [1]⟩, ⟨"R", "C", [0], "B", [1]⟩], []⟩]).boundaryOffset.tp = 1 ∧
    ¬ ((RelationScorer.evalMetrics Mode.set
        [⟨[⟨"R", "A", [0], "B", [1]⟩, ⟨"R", "C", [0], "B", [1]⟩], []⟩]
        [⟨[⟨"R", "A", [0], "B", [1]⟩, ⟨"R", "C", [0], "B", [1]⟩], []⟩]).strictOffset.tp ≤
      (RelationScorer.evalMetrics Mode.set
        [⟨[⟨"R", "A", [0], "B", [1]⟩, ⟨"R", "C", [0], "B", [1]⟩], []⟩]
        [⟨[⟨"R", "A", [0], "B", [1]⟩, ⟨"R", "C", [0], "B", [1]⟩], []⟩]).boundaryOffset.tp) := by
  decide

/-- Witness for the amended C2: one concrete corpus in `normal` mode and one
concrete pair in `multimatch` mode. -/
theorem relation_boundary_ge_strict_witness :
    ((RelationScorer.evalMetrics Mode.normal
        [⟨[⟨"R", "A", [0], "B", [1]⟩], []⟩]
        [⟨[⟨"R", "C", [0], "B", [1]⟩], []⟩]).strictOffset.tp ≤
        (RelationScorer.evalMetrics Mode.normal
          [⟨[⟨"R", "A", [0], "B", [1]⟩], []⟩]
          [⟨[⟨"R", "C", [0], "B", [1]⟩], []⟩]).boundaryOffset.tp ∧
      (RelationScorer.evalMetrics Mode.normal
        [⟨[⟨"R", "A", [0], "B", [1]⟩], []⟩]
        [⟨[⟨"R", "C", [0], "B", [1]⟩], []⟩]).strictString.tp ≤
        (RelationScorer.evalMetrics Mode.normal
          [⟨[⟨"R", "A", [0], "B", [1]⟩], []⟩]
          [⟨[⟨"R", "C", [0], "B", [1]⟩], []⟩]).boundaryString.tp) ∧
    ((Metric.count_instance Mode.multimatch MState.init
        (⟨[⟨"R", "A", [0], "B", [1]⟩], []⟩ : RelInstance).offset
        (⟨[⟨"R", "C", [0], "B", [1]⟩], []⟩ : RelInstance).offset).tp ≤
        (Metric.count_instance Mode.multimatch MState.init
          ((⟨[⟨"R", "A", [0], "B", [1]⟩], []⟩ : RelInstance).offset.map stripRel)
          ((⟨[⟨"R", "C", [0], "B", [1]⟩], []⟩ : RelInstance).offset.map stripRel)).tp ∧
      (Metric.count_instance Mode.multimatch MState.init
        (⟨[⟨"R", "A", [0], "B", [1]⟩], []⟩ : RelInstance).string
        (⟨[⟨"R", "C", [0], "B", [1]⟩], []⟩ : RelInstance).string).tp ≤
        (Metric.count_instance Mode.multimatch MState.init
          ((⟨[⟨"R", "A", [0], "B", [1]⟩], []⟩ : RelInstance).string.map stripRel)
          ((⟨[⟨"R", "C", [0], "B", [1]⟩], []⟩ : RelInstance).string.map stripRel)).tp) :=
  ⟨(relation_boundary_tp_ge_strict_tp Mode.normal (Or.inl rfl)).1
      [⟨[⟨"R", "A", [0], "B", [1]⟩], []⟩] [⟨[⟨"R", "C", [0], "B", [1]⟩], []⟩],
   (relation_boundary_tp_ge_strict_tp Mode.multimatch (Or.inr rfl)).2 MState.init
      ⟨[⟨"R", "A", [0], "B", [1]⟩], []⟩ ⟨[⟨"R", "C", [0], "B", [1]⟩], []⟩⟩

/-- C7: the structural record equalities hold exactly when the `type` fields
agree, the `spot` fields agree, the `asocs` bags have equal length and
corresponding `asocs` entries agree — after canonically sorting both bags for
`RecordMetric`, in original sequence order for `OrderedRecordMetric` — and
`count_instance` scans golds in original order under per-gold consumed flags,
counting at most one gold per prediction in `normal` mode (the scan stops at
the first match), while in `multimatch` mode the scan goes on, as the
concrete runs show: gold `[r, r]` with pred `[r]` counts 1 in `normal` mode
but 2 in `multimatch` mode, and consumed golds are never matched again. -/
theorem record_structural_equality :
    (∀ (γ : Type) [inst : LinearOrder γ] (gold pred : Record γ),
      RecordMetric.is_equal gold pred = true ↔
        (gold.rtype = pred.rtype ∧ gold.spot = pred.spot ∧
         gold.asocs.length = pred.asocs.length ∧
         ∀ (i : Nat) (h₁ : i < (List.insertionSort (· ≤ ·) gold.asocs).length)
           (h₂ : i < (List.insertionSort (· ≤ ·) pred.asocs).length),
           (List.insertionSort (· ≤ ·) gold.asocs).get ⟨i, h₁⟩ =
             (List.insertionSort (· ≤ ·) pred.asocs).get ⟨i, h₂⟩)) ∧
    (∀ (γ : Type) [inst : DecidableEq γ] (gold pred : Record γ),
      OrderedRecordMetric.is_equal gold pred = true ↔
        (gold.rtype = pred.rtype ∧ gold.spot = pred.spot ∧
         gold.asocs.length = pred.asocs.length ∧
         ∀ (i : Nat) (h₁ : i < gold.asocs.length) (h₂ : i < pred.asocs.length),
           gold.asocs.get ⟨i, h₁⟩ = pred.asocs.get ⟨i, h₂⟩)) ∧
    (∀ (β : Type) (eq : β → β → Bool) (st : List (β × Bool)) (p : β),
      (scanGold eq Mode.normal p st).1 ≤ 1) ∧
    (recordLoop (RecordMetric.is_equal (γ := Nat)) Mode.normal
        [(⟨"t", "s", []⟩, true), (⟨"t", "s", []⟩, true)] [⟨"t", "s", []⟩] = 1 ∧
      recordLoop (RecordMetric.is_equal (γ := Nat)) Mode.multimatch
        [(⟨"t", "s", []⟩, true), (⟨"t", "s", []⟩, true)] [⟨"t", "s", []⟩] = 2 ∧
      recordLoop (RecordMetric.is_equal (γ := Nat)) Mode.normal
        [(⟨"t", "s", []⟩, true)] [⟨"t", "s", []⟩, ⟨"t", "s", []⟩] = 1 ∧
      recordLoop (RecordMetric.is_equal (γ := Nat)) Mode.normal
        [(⟨"t", "s", []⟩, true), (⟨"t", "s", []⟩, true)]
        [⟨"t", "s", []⟩, ⟨"t", "s", []⟩] = 2) := by
  refine ⟨?_, ?_, fun β eq st p => scanGold_normal_le_one eq p st,
    by decide, by decide, by decide, by decide⟩
  · intro γ inst gold pred
    by_cases h1 : gold.rtype = pred.rtype
    · by_cases h2 : gold.spot = pred.spot
      · by_cases h3 : gold.asocs.length = pred.asocs.length
        · simp only [RecordMetric.is_equal,
            if_neg (show ¬gold.rtype ≠ pred.rtype from fun hc => hc h1),
            if_neg (show ¬gold.spot ≠ pred.spot from fun hc => hc h2),
            if_neg (show ¬gold.asocs.length ≠ pred.asocs.length from fun hc => hc h3)]
          rw [zip_all_eq_iff]
          constructor
          · intro h; exact ⟨h1, h2, h3, h⟩
          · rintro ⟨-, -, -, h⟩; exact h
        · simp only [RecordMetric.is_equal,
            if_neg (show ¬gold.rtype ≠ pred.rtype from fun hc => hc h1),
            if_neg (show ¬gold.spot ≠ pred.spot from fun hc => hc h2), if_pos h3]
          simp [h3]
      · simp only [RecordMetric.is_equal,
          if_neg (show ¬gold.rtype ≠ pred.rtype from fun hc => hc h1), if_pos h2]
        simp [h2]
    · simp only [RecordMetric.is_equal, if_pos h1]
      simp [h1]
  · intro γ inst gold pred
    by_cases h1 : gold.rtype = pred.rtype
    · by_cases h2 : gold.spot = pred.spot
      · by_cases h3 : gold.asocs.length = pred.asocs.length
        · simp only [OrderedRecordMetric.is_equal,
            if_neg (show ¬gold.rtype ≠ pred.rtype from fun hc => hc h1),
            if_neg (show ¬gold.spot ≠ pred.spot from fun hc => hc h2),
            if_neg (show ¬gold.asocs.length ≠ pred.asocs.length from fun hc => hc h3)]
          rw [zip_all_eq_iff]
          constructor
          · intro h; exact ⟨h1, h2, h3, h⟩
          · rintro ⟨-, -, -, h⟩; exact h
        · simp only [OrderedRecordMetric.is_equal,
            if_neg (show ¬gold.rtype ≠ pred.rtype from fun hc => hc h1),
            if_neg (show ¬gold.spot ≠ pred.spot from fun hc => hc h2), if_pos h3]
          simp [h3]
      · simp only [OrderedRecordMetric.is_equal,
          if_neg (show ¬gold.rtype ≠ pred.rtype from fun hc => hc h1), if_pos h2]
        simp [h2]
    · simp only [OrderedRecordMetric.is_equal, if_pos h1]
      simp [h1]

/-- If any record of an example has an argument count other than 2,
canonicalizing that example aborts with an assertion error. -/
theorem loadGoldExample_error (r : RelRawRecord) :
    ∀ (ex : List RelRawRecord), r ∈ ex → r.args.length ≠ 2 →
      ∃ e, loadGoldExample ex = Except.error e := by
  intro ex
  induction ex with
  | nil => intro h _; cases h
  | cons r0 rs ih =>
    intro hmem hlen
    rcases h0 : r0.args with _ | ⟨a1, rest1⟩
    · exact ⟨"assert len(args) == 2", by simp only [loadGoldExample, h0]⟩
    · rcases rest1 with _ | ⟨a2, rest2⟩
      · exact ⟨"assert len(args) == 2", by simp only [loadGoldExample, h0]⟩
      · rcases rest2 with _ | ⟨a3, rest3⟩
        · have hr : r ∈ rs := by
            rcases List.mem_cons.mp hmem with h | h
            · subst h
              rw [h0] at hlen
              simp at hlen
            · exact h
          obtain ⟨e, he⟩ := ih hr hlen
          exact ⟨e, by simp only [loadGoldExample, h0, he]⟩
        · exact ⟨"assert len(args) == 2", by simp only [loadGoldExample, h0]⟩

/-- C8: all three programming-error inputs abort instead of being tolerated:
a head-arity mismatch between non-empty gold and pred lists in
`normal`/`multimatch` mode makes `Metric.count_instance` fail its assertion;
`RelationScorer.load_gold_list` aborts whenever any gold record has an
argument count other than 2; and `RecordMetric.count_instance` raises
`NotImplementedError` on every call in `set` mode. -/
theorem fail_fast_on_malformed_input :
    (∀ (mode : Mode) (st : MState) (g p : List String) (gs ps : List (List String)),
      mode = Mode.normal ∨ mode = Mode.multimatch → g.length ≠ p.length →
      Metric.count_instance_checked mode st (g :: gs) (p :: ps) =
        Except.error "assert len(gold_list[0]) == len(pred_list[0])") ∧
    (∀ (gold_list : List (List RelRawRecord)) (ex : List RelRawRecord) (r : RelRawRecord),
      ex ∈ gold_list → r ∈ ex → r.args.length ≠ 2 →
      ∃ e, RelationScorer.load_gold_list gold_list = Except.error e) ∧
    (∀ (β : Type) (eq : β → β → Bool) (st : MState) (gold pred : List β),
      RecordMetric.count_instance eq Mode.set st gold pred =
        Except.error "do not support the match model `set`") := by
  refine ⟨?_, ?_, ?_⟩
  · intro mode st g p gs ps hmode hlen
    rcases hmode with h | h <;> subst h <;>
      simp only [Metric.count_instance_checked, if_neg hlen]
  · intro gold_list
    induction gold_list with
    | nil => intro ex r h; cases h
    | cons g0 gs ih =>
      intro ex r hmem hr hlen
      rcases List.mem_cons.mp hmem with h | h
      · subst h
        obtain ⟨e, he⟩ := loadGoldExample_error r ex hr hlen
        exact ⟨e, by simp only [RelationScorer.load_gold_list, he]⟩
      · rcases hcase : loadGoldExample g0 with e1 | inst0
        · exact ⟨e1, by simp only [RelationScorer.load_gold_list, hcase]⟩
        · obtain ⟨e, he⟩ := ih ex r h hr hlen
          exact ⟨e, by simp only [RelationScorer.load_gold_list, hcase, he]⟩
  · intro β eq st gold pred
    rfl

/-- Witness for C8 at concrete malformed inputs: a 2-tuple gold head against a
1-tuple pred head, a relation record with no arguments, and a `set`-mode
record call. -/
theorem fail_fast_witness :
    (Metric.count_instance_checked Mode.normal MState.init
        [["PER", "a"]] [["x"]] =
      Except.error "assert len(gold_list[0]) == len(pred_list[0])") ∧
    (∃ e, RelationScorer.load_gold_list [[⟨"R", []⟩]] = Except.error e) ∧
    (RecordMetric.count_instance (fun a b : Nat => a == b) Mode.set MState.init [] [] =
      Except.error "do not support the match model `set`") :=
  ⟨fail_fast_on_malformed_input.1 Mode.normal MState.init ["PER", "a"] ["x"] [] []
      (Or.inl rfl) (by decide),
   fail_fast_on_malformed_input.2.1 [[⟨"R", []⟩]] [⟨"R", []⟩] ⟨"R", []⟩
      (by simp) (by simp) (by decide),
   fail_fast_on_malformed_input.2.2 Nat (fun a b => a == b) MState.init [] []⟩

/-- C9: `count_instance` never modifies the caller's gold or pred list in any
match mode. Over the store, any live address (below the allocation frontier,
in particular the gold and pred addresses) holds the same list after the call:
the `normal`-mode removal happens on a deep copy at a fresh address, the `set`
branch only rebinds locals, and the record scan mutates only its local flag
array. Consequently the counter result is exactly the pure function of the
unchanged inputs, so parallel accumulators fed the same lists see them
unchanged. -/
theorem count_instance_no_mutation :
    (∀ (α : Type) [inst : DecidableEq α] (mode : Mode) (σ : Store α) (st : MState)
      (gA pA : Nat), gA < σ.next → pA < σ.next →
      (Metric.count_instance_ref mode σ st gA pA).1.mem gA = σ.mem gA ∧
      (Metric.count_instance_ref mode σ st gA pA).1.mem pA = σ.mem pA ∧
      (Metric.count_instance_ref mode σ st gA pA).2 =
        Metric.count_instance mode st (σ.mem gA) (σ.mem pA)) ∧
    (∀ (β : Type) (eq : β → β → Bool) (mode : Mode) (σ : Store β) (st : MState)
      (gA pA : Nat),
      (RecordMetric.count_instance_ref eq mode σ st gA pA).1 = σ ∧
      (RecordMetric.count_instance_ref eq mode σ st gA pA).2 =
        RecordMetric.count_instance eq mode st (σ.mem gA) (σ.mem pA)) := by
  constructor
  · intro α inst mode σ st gA pA hg hp
    have hgne : gA ≠ σ.next := Nat.ne_of_lt hg
    have hpne : pA ≠ σ.next := Nat.ne_of_lt hp
    cases mode with
    | set => exact ⟨rfl, rfl, rfl⟩
    | normal =>
      simp only [Metric.count_instance_ref, Store.alloc]
      refine ⟨?_, ?_, ?_⟩
      · rw [(tupleLoopRef_frame Mode.normal σ.next (σ.mem pA) _ gA hgne).1]
        simp [hgne]
      · rw [(tupleLoopRef_frame Mode.normal σ.next (σ.mem pA) _ pA hpne).1]
        simp [hpne]
      · rw [tupleLoopRef_count]
        simp [Metric.count_instance]
    | multimatch =>
      simp only [Metric.count_instance_ref, Store.alloc]
      refine ⟨?_, ?_, ?_⟩
      · rw [(tupleLoopRef_frame Mode.multimatch σ.next (σ.mem pA) _ gA hgne).1]
        simp [hgne]
      · rw [(tupleLoopRef_frame Mode.multimatch σ.next (σ.mem pA) _ pA hpne).1]
        simp [hpne]
      · rw [tupleLoopRef_count]
        simp [Metric.count_instance]
  · intro β eq mode σ st gA pA
    exact ⟨rfl, rfl⟩

/-- Witness for C9: a two-object store holding gold `[1]` at address 0 and
pred `[1, 1]` at address 1, scored in `normal` mode. -/
theorem count_instance_no_mutation_witness :
    ((Metric.count_instance_ref Mode.normal
        ⟨fun a => if a = 0 then [(1 : Nat)] else if a = 1 then [1, 1] else [], 2⟩
        MState.init 0 1).1.mem 0 =
      (⟨fun a => if a = 0 then [(1 : Nat)] else if a = 1 then [1, 1] else [], 2⟩ :
        Store Nat).mem 0 ∧
     (Metric.count_instance_ref Mode.normal
        ⟨fun a => if a = 0 then [(1 : Nat)] else if a = 1 then [1, 1] else [], 2⟩
        MState.init 0 1).1.mem 1 =
      (⟨fun a => if a = 0 then [(1 : Nat)] else if a = 1 then [1, 1] else [], 2⟩ :
        Store Nat).mem 1 ∧
     (Metric.count_instance_ref Mode.normal
        ⟨fun a => if a = 0 then [(1 : Nat)] else if a = 1 then [1, 1] else [], 2⟩
        MState.init 0 1).2 =
      Metric.count_instance Mode.normal MState.init
        ((⟨fun a => if a = 0 then [(1 : Nat)] else if a = 1 then [1, 1] else [], 2⟩ :
          Store Nat).mem 0)
        ((⟨fun a => if a = 0 then [(1 : Nat)] else if a = 1 then [1, 1] else [], 2⟩ :
          Store Nat).mem 1)) ∧
    (RecordMetric.count_instance_ref (fun a b : Nat => a == b) Mode.normal
        ⟨fun a => if a = 0 then [(1 : Nat)] else if a = 1 then [1, 1] else [], 2⟩
        MState.init 0 1).1 =
      ⟨fun a => if a = 0 then [(1 : Nat)] else if a = 1 then [1, 1] else [], 2⟩ :=
  ⟨count_instance_no_mutation.1 Nat Mode.normal
      ⟨fun a => if a = 0 then [(1 : Nat)] else if a = 1 then [1, 1] else [], 2⟩
      MState.init 0 1 (by decide) (by decide),
   (count_instance_no_mutation.2 Nat (fun a b => a == b) Mode.normal
      ⟨fun a => if a = 0 then [(1 : Nat)] else if a = 1 then [1, 1] else [], 2⟩
      MState.init 0 1).1⟩

/-- C10: length-mismatched corpora are handled by zip truncation in all three
scorers: `eval_instance_list` over (gold, pred) equals `eval_instance_list`
over both lists cut at n = min(len gold, len pred), so the surplus examples of
the longer list contribute to no accumulator and no result entry, and no
error occurs (the evaluation is total). -/
theorem eval_instance_list_zip_truncates :
    ∀ (mode : Mode),
      (∀ gold_instance_list pred_instance_list : List EntInstance,
        EntityScorer.evalMetrics mode gold_instance_list pred_instance_list =
          EntityScorer.evalMetrics mode
            (gold_instance_list.take (min gold_instance_list.length pred_instance_list.length))
            (pred_instance_list.take (min gold_instance_list.length pred_instance_list.length)) ∧
        EntityScorer.eval_instance_list mode gold_instance_list pred_instance_list =
          EntityScorer.eval_instance_list mode
            (gold_instance_list.take (min gold_instance_list.length pred_instance_list.length))
            (pred_instance_list.take (min gold_instance_list.length pred_instance_list.length))) ∧
      (∀ gold_instance_list pred_instance_list : List RelInstance,
        RelationScorer.evalMetrics mode gold_instance_list pred_instance_list =
          RelationScorer.evalMetrics mode
            (gold_instance_list.take (min gold_instance_list.length pred_instance_list.length))
            (pred_instance_list.take (min gold_instance_list.length pred_instance_list.length)) ∧
        RelationScorer.eval_instance_list mode gold_instance_list pred_instance_list =
          RelationScorer.eval_instance_list mode
            (gold_instance_list.take (min gold_instance_list.length pred_instance_list.length))
            (pred_instance_list.take (min gold_instance_list.length pred_instance_list.length))) ∧
      (∀ gold_instance_list pred_instance_list : List EvtInstance,
        EventScorer.evalMetrics mode gold_instance_list pred_instance_list =
          EventScorer.evalMetrics mode
            (gold_instance_list.take (min gold_instance_list.length pred_instance_list.length))
            (pred_instance_list.take (min gold_instance_list.length pred_instance_list.length)) ∧
        EventScorer.eval_instance_list mode gold_instance_list pred_instance_list =
          EventScorer.eval_instance_list mode
            (gold_instance_list.take (min gold_instance_list.length pred_instance_list.length))
            (pred_instance_list.take (min gold_instance_list.length pred_instance_list.length))) := by
  intro mode
  have hz : ∀ {A : Type} (pl gl : List A),
      pl.zip gl =
        (pl.take (min gl.length pl.length)).zip (gl.take (min gl.length pl.length)) := by
    intro A pl gl
    rw [Nat.min_comm]
    exact zip_eq_zip_take pl gl
  refine ⟨fun g p => ?_, fun g p => ?_, fun g p => ?_⟩
  · have hm : EntityScorer.evalMetrics mode g p =
        EntityScorer.evalMetrics mode (g.take (min g.length p.length))
          (p.take (min g.length p.length)) := by
      simp only [EntityScorer.evalMetrics]
      rw [← hz p g]
    exact ⟨hm, by simp only [EntityScorer.eval_instance_list]; rw [hm]⟩
  · have hm : RelationScorer.evalMetrics mode g p =
        RelationScorer.evalMetrics mode (g.take (min g.length p.length))
          (p.take (min g.length p.length)) := by
      simp only [RelationScorer.evalMetrics]
      rw [← hz p g]
    exact ⟨hm, by simp only [RelationScorer.eval_instance_list]; rw [hm]⟩
  · have hm : EventScorer.evalMetrics mode g p =
        EventScorer.evalMetrics mode (g.take (min g.length p.length))
          (p.take (min g.length p.length)) := by
      simp only [EventScorer.evalMetrics]
      rw [← hz p g]
    exact ⟨hm, by simp only [EventScorer.eval_instance_list]; rw [hm]⟩

end AdaKGC
